import Mathlib

/-!
Shallow embedding of `count_console_logs.py`, a script that counts
`console.log` statements in a source tree and classifies each one as
guarded (inside a `DEBUG_CONFIG` if-block, detected by a heuristic
backward brace scan) or unguarded, then prints a report.

Lines of text are modelled as `List Char`; a file is a `List (List Char)`
(the result of `readlines`, each element one raw line).  Python's
`IndexError` is modelled by `Option`: the classifier core returns `none`
exactly when the Python code would read `lines[i]` out of bounds.
-/

namespace CountConsoleLogs

/-- The whitespace characters stripped by Python's `str.strip()` (ASCII part). -/
def pyIsSpace (c : Char) : Bool :=
  c = ' ' || c = '\t' || c = '\n' || c = '\r' || c = '\x0b' || c = '\x0c'

/-- Python's `line.strip()`: drop whitespace from both ends. -/
def pyStrip (l : List Char) : List Char :=
  ((l.dropWhile pyIsSpace).reverse.dropWhile pyIsSpace).reverse

/-- `matchesAt needle hay`: `needle` occurs at the very start of `hay`. -/
def matchesAt : List Char → List Char → Bool
  | [], _ => true
  | _ :: _, [] => false
  | c :: cs, d :: ds => c = d && matchesAt cs ds

/-- Python's substring test `tok in hay`. -/
def containsTok (tok : List Char) : List Char → Bool
  | [] => matchesAt tok []
  | c :: t => matchesAt tok (c :: t) || containsTok tok (t)

/-- The guard keyword searched for: `if`. -/
def ifTok : List Char := "if".toList

/-- The guard marker searched for: `DEBUG_CONFIG`. -/
def debugTok : List Char := "DEBUG_CONFIG".toList

/-- The target call substring: `console.log`. -/
def consoleTok : List Char := "console.log".toList

/-- The net brace delta of a visited line, as added to the running depth
counter: its count of closing braces minus its count of opening braces. -/
def braceDelta (s : List Char) : Int :=
  (s.count '\x7d' : Int) - (s.count '\x7b' : Int)

/-- The guard test of line 19 of the source: the line contains `if` and
contains `DEBUG_CONFIG` and the brace counter is negative, the counter
being already updated with the braces of the line itself. -/
def guardHit (s : List Char) (c : Int) : Bool :=
  containsTok ifTok s && containsTok debugTok s && decide (c < 0)

/-- The backward scan loop
`for i in range(log_line_num - 1, -1, -1)` of
`is_console_log_behind_debug_config`, started at index `i` with
accumulated brace counter `c`.  Returns `none` when `lines[i]` is out of
bounds (Python would raise `IndexError`). -/
def scanFrom (lines : List (List Char)) (n : Nat) : Nat → Int → Option Bool
  | i, c =>
    match lines[i]? with
    | none => none
    | some l =>
      let s := pyStrip l
      let c2 := c + braceDelta s
      if guardHit s c2 then some true
      else if 0 ≤ c2 ∧ (i : Int) < (n : Int) - 1 then some false
      else
        match i with
        | 0 => some false
        | j + 1 => scanFrom lines n j c2

/-- The tail of one scan-loop step: step to the next smaller index with
the updated counter, or finish with `False` when the loop has reached
index 0. -/
def scanCont (lines : List (List Char)) (n : Nat) (c2 : Int) :
    Nat → Option Bool
  | 0 => some false
  | j + 1 => scanFrom lines n j c2

/-- `is_console_log_behind_debug_config(lines, log_line_num)`:
`some b` is a normal return of `b`, `none` an `IndexError`.
For `log_line_num = 0` the loop body never runs and the function
returns `False`. -/
def is_console_log_behind_debug_config
    (lines : List (List Char)) (log_line_num : Nat) : Option Bool :=
  match log_line_num with
  | 0 => some false
  | m + 1 => scanFrom lines (m + 1) m 0

/-- The per-file result dictionary built by `analyze_file`. -/
structure FileResult where
  total : Nat
  behind_debug : Nat
  not_behind_debug : Nat
  not_behind_debug_lines : List (Nat × List Char)
  deriving Repr, DecidableEq

/-- One iteration of the `for i, line in enumerate(lines)` loop of
`analyze_file`. -/
def analyzeStep (lines : List (List Char)) (r : FileResult)
    (p : Nat × List Char) : FileResult :=
  if containsTok consoleTok p.2 then
    if is_console_log_behind_debug_config lines p.1 = some true then
      { r with total := r.total + 1, behind_debug := r.behind_debug + 1 }
    else
      { r with total := r.total + 1,
               not_behind_debug := r.not_behind_debug + 1,
               not_behind_debug_lines :=
                 r.not_behind_debug_lines ++ [(p.1 + 1, pyStrip p.2)] }
  else r

/-- `analyze_file`, as a function of the file's lines. -/
def analyze_file (lines : List (List Char)) : FileResult :=
  (List.enumFrom 0 lines).foldl (analyzeStep lines) ⟨0, 0, 0, []⟩

/-- A file path, modelled as its character sequence. -/
abbrev PathStr := List Char

/-- One unguarded occurrence list, as stored per file in the summary. -/
abbrev OccList := List (Nat × List Char)

/-- The `all_results` accumulator of `main`: grand totals plus the
`files_with_unguarded` dictionary, modelled as an insertion-ordered
association list. -/
structure RunSummary where
  total : Nat
  behind_debug : Nat
  not_behind_debug : Nat
  files_with_unguarded : List (PathStr × OccList)
  deriving Repr, DecidableEq

/-- Python dictionary assignment `d[k] = v`: overwrite in place when the
key is present, append otherwise (insertion order preserved). -/
def setAssoc (m : List (PathStr × OccList)) (k : PathStr) (v : OccList) :
    List (PathStr × OccList) :=
  if m.any (fun q => q.1 = k) then
    m.map (fun q => if q.1 = k then (k, v) else q)
  else m ++ [(k, v)]

/-- One iteration of the per-file loop of `main`: add the file's counts to
the grand totals, and record the file under `files_with_unguarded` exactly
when its unguarded occurrence list is non-empty (Python truthiness of
the recorded occurrence list). -/
def mainStep (s : RunSummary) (f : PathStr × List (List Char)) : RunSummary :=
  let r := analyze_file f.2
  let s2 : RunSummary :=
    { s with total := s.total + r.total,
             behind_debug := s.behind_debug + r.behind_debug,
             not_behind_debug := s.not_behind_debug + r.not_behind_debug }
  if r.not_behind_debug_lines = [] then s2
  else { s2 with files_with_unguarded :=
          setAssoc s2.files_with_unguarded f.1 r.not_behind_debug_lines }

/-- The whole scan of `main`, as a function of the enumerated files (the
`.ts` files followed by the `.tsx` files, each a path with its lines). -/
def runScan (files : List (PathStr × List (List Char))) : RunSummary :=
  files.foldl mainStep ⟨0, 0, 0, []⟩

/-- One unit of printed output in the per-file detail section of the
report: a file header (`path: k unguarded console.log statements`),
an example line (`Line n: snippet...`), or a remainder line
(`... and k more`). -/
inductive ReportItem where
  | header : PathStr → Nat → ReportItem
  | sample : Nat → List Char → ReportItem
  | remaining : Nat → ReportItem
  deriving Repr, DecidableEq

/-- Comparison used when `main` sorts the dictionary items for printing:
item tuples are ordered by their first component, the path string
(keys are distinct, so the value part never takes part in the order). -/
def pairLe (a b : PathStr × OccList) : Prop := a.1 ≤ b.1

instance : DecidableRel pairLe :=
  fun a b => inferInstanceAs (Decidable (a.1 ≤ b.1))

instance : IsTotal (PathStr × OccList) pairLe :=
  ⟨fun a b => le_total a.1 b.1⟩

instance : IsTrans (PathStr × OccList) pairLe :=
  ⟨fun _ _ _ hab hbc => le_trans hab hbc⟩

/-- `sorted(...)` over the dictionary items: ascending by path. -/
def sortPairs (m : List (PathStr × OccList)) : List (PathStr × OccList) :=
  List.insertionSort pairLe m

/-- The detail printed for one file: its header, the first 3 occurrences
(`logs[:3]`, each with its line number and the `[:80]`-truncated snippet),
and, when more than 3 occurrences exist, the `... and k more` line. -/
def fileDetail (p : PathStr) (logs : OccList) : List ReportItem :=
  ReportItem.header p logs.length ::
    ((logs.take 3).map (fun o => ReportItem.sample o.1 (o.2.take 80)) ++
      (if logs.length > 3 then [ReportItem.remaining (logs.length - 3)] else []))

/-- The whole per-file detail section of the printed report:
files sorted by path, each contributing its `fileDetail` block. -/
def reportDetails (m : List (PathStr × OccList)) : List ReportItem :=
  (sortPairs m).flatMap (fun q => fileDetail q.1 q.2)

/-- The sequence of file paths printed as headers, in report order. -/
def headerPaths (items : List ReportItem) : List PathStr :=
  items.filterMap (fun it =>
    match it with
    | ReportItem.header p _ => some p
    | _ => none)

/-! ### Concrete line sequences used by the scenario claims -/

/-- Scenario A of the spec: a `DEBUG_CONFIG` guard line directly above the
target `console.log` line. -/
def scenarioA : List (List Char) :=
  ["if (DEBUG_CONFIG.enabled) \x7b".toList,
   "  console.log(\"x\");".toList,
   "\x7d".toList]

/-- Scenario D with a multi-line unrelated block (no `DEBUG_CONFIG`)
between the target line and the enclosing outer guard, the target sitting
directly at the guard's depth. -/
def scenarioD_flat : List (List Char) :=
  ["if (DEBUG_CONFIG) \x7b".toList,
   "  if (x) \x7b".toList,
   "    y();".toList,
   "  \x7d".toList,
   "  console.log(\"x\");".toList]

/-- Scenario D variant where the target is nested two further blocks below
the unrelated multi-line block, so the running depth counter stays strictly
negative while the scan crosses the block. -/
def scenarioD_deep : List (List Char) :=
  ["if (DEBUG_CONFIG) \x7b".toList,
   "  if (x) \x7b".toList,
   "    y();".toList,
   "  \x7d".toList,
   "  if (z) \x7b".toList,
   "    if (w) \x7b".toList,
   "      console.log(\"x\");".toList]

/-- Recognizer for the example items of the report. -/
def isSampleItem : ReportItem → Bool
  | ReportItem.sample _ _ => true
  | _ => false

/-- A file whose single line is an unguarded `console.log`. -/
def demoUnguarded : List (List Char) := ["console.log(\"hi\");".toList]

/-- A two-file scan input with distinct paths: one file with an unguarded
call, one (Scenario A) whose only call is guarded. -/
def demoFiles : List (PathStr × List (List Char)) :=
  [("src/a.ts".toList, demoUnguarded), ("src/b.ts".toList, scenarioA)]

/-- An occurrence list with five entries, for exercising the report. -/
def demoLogs : OccList :=
  [(1, "a".toList), (2, "b".toList), (3, "c".toList),
   (4, "d".toList), (5, "e".toList)]

/-! ### Claim theorems -/

/-- C5: Scenario A — for the three-line sequence
`if (DEBUG_CONFIG.enabled) {` / `  console.log("x");` / `}`, the classifier
called at the index of the `console.log` line returns true (guarded). -/
theorem C5_scenario_A :
    is_console_log_behind_debug_config scenarioA 1 = some true := by
  decide

/-- C1 counterexample: for a file where an unrelated multi-line brace block
(containing `if` but no `DEBUG_CONFIG`) sits between the target
`console.log` line and an enclosing outer `if (DEBUG_CONFIG) {` line, the
classifier does NOT return true: the early exit of the backward scan fires
on the second line of the unrelated block (depth counter back to 0 there)
and the classifier returns false. -/
theorem C1_counterexample :
    is_console_log_behind_debug_config scenarioD_flat 4 = some false ∧
      ¬ is_console_log_behind_debug_config scenarioD_flat 4 = some true := by
  decide

/-- C1 amended: the classifier continues scanning through an unrelated
multi-line block only while the running depth counter stays strictly
negative.  When the target is nested deeply enough below the block for that
to hold (`scenarioD_deep`), the outer `DEBUG_CONFIG` guard is detected and
the classifier returns true; when the target sits directly at the guard's
depth (`scenarioD_flat`), the depth counter returns to non-negative inside
the unrelated block and the classifier stops early, returning false. -/
theorem C1_amended :
    is_console_log_behind_debug_config scenarioD_deep 6 = some true ∧
      is_console_log_behind_debug_config scenarioD_flat 4 = some false := by
  decide

/-- C10: guard recognition is raw substring matching — when the backward
scan visits a line whose stripped text contains the two-character substring
`if` anywhere and the substring `DEBUG_CONFIG`, and the running depth
counter (updated with that line's braces) is strictly negative, the scan
returns true immediately. -/
theorem C10_guard_is_raw_substring
    (lines : List (List Char)) (n i : Nat) (c : Int) (l : List Char)
    (h : lines[i]? = some l)
    (hif : containsTok ifTok (pyStrip l) = true)
    (hdbg : containsTok debugTok (pyStrip l) = true)
    (hneg : c + braceDelta (pyStrip l) < 0) :
    scanFrom lines n i c = some true := by
  have hg : guardHit (pyStrip l) (c + braceDelta (pyStrip l)) = true := by
    simp [guardHit, hif, hdbg, hneg]
  rw [scanFrom, h]
  simp only [hg]
  simp

/-- C10 witness: a line whose only `if` occurs inside the longer words
`notify` and `diff` still triggers the guard: the classifier reports the
`console.log` on the next line as guarded. -/
theorem C10_guard_is_raw_substring_witness :
    is_console_log_behind_debug_config
      ["notify diff DEBUG_CONFIG \x7b".toList,
       "console.log(\"x\");".toList] 1 = some true :=
  C10_guard_is_raw_substring
    ["notify diff DEBUG_CONFIG \x7b".toList,
     "console.log(\"x\");".toList]
    1 0 0 ("notify diff DEBUG_CONFIG \x7b".toList)
    rfl (by decide) (by decide) (by decide)

/-- One unfolding step of the scan loop when the visited line exists. -/
theorem scanFrom_eq_body (lines : List (List Char)) (n i : Nat) (c : Int)
    (l : List Char) (h : lines[i]? = some l) :
    scanFrom lines n i c =
      (if guardHit (pyStrip l) (c + braceDelta (pyStrip l)) then some true
       else if 0 ≤ c + braceDelta (pyStrip l) ∧ (i : Int) < (n : Int) - 1 then
         some false
       else scanCont lines n (c + braceDelta (pyStrip l)) i) := by
  rw [scanFrom, h]
  cases i <;> rfl

/-- C2: the early-exit rule of the backward scan.  First part: on any
visited line with index `i < log_line_num - 1`, if the depth counter is
non-negative after processing that line's braces and the line did not
trigger the guard rule, the scan stops and returns false.  Second part: the
immediately-preceding line (`i = log_line_num - 1`) is exempt — with the
guard not triggered there, the scan continues to the next line regardless
of the counter's sign. -/
theorem C2_early_exit :
    (∀ (lines : List (List Char)) (n i : Nat) (c : Int) (l : List Char),
        lines[i]? = some l →
        (i : Int) < (n : Int) - 1 →
        0 ≤ c + braceDelta (pyStrip l) →
        guardHit (pyStrip l) (c + braceDelta (pyStrip l)) = false →
        scanFrom lines n i c = some false)
    ∧ (∀ (lines : List (List Char)) (n j : Nat) (c : Int) (l : List Char),
        lines[j + 1]? = some l →
        (n : Int) - 1 = ((j + 1 : Nat) : Int) →
        guardHit (pyStrip l) (c + braceDelta (pyStrip l)) = false →
        scanFrom lines n (j + 1) c =
          scanFrom lines n j (c + braceDelta (pyStrip l))) := by
  constructor
  · intro lines n i c l h hlt hc hg
    rw [scanFrom_eq_body lines n i c l h, if_neg (by simp [hg]),
      if_pos ⟨hc, hlt⟩]
  · intro lines n j c l h heq hg
    have hnotlt : ¬ (0 ≤ c + braceDelta (pyStrip l) ∧
        ((j + 1 : Nat) : Int) < (n : Int) - 1) := by
      intro hand
      rw [heq] at hand
      exact lt_irrefl _ hand.2
    rw [scanFrom_eq_body lines n (j + 1) c l h, if_neg (by simp [hg]),
      if_neg hnotlt]
    rfl

/-- C2 witness: concrete instances of both parts of the early-exit rule on
the file `["} a();", "b();", "console.log"]` with the target at index 2:
the scan stops with false on `} a();` (index 0 < 1, counter back to 1),
while on the exempt first-visited line `b();` it continues to index 0. -/
theorem C2_early_exit_witness :
    scanFrom ["\x7d a();".toList, "b();".toList, "console.log".toList] 2 0 0
        = some false
    ∧ scanFrom ["\x7d a();".toList, "b();".toList, "console.log".toList] 2 1 0
        = scanFrom ["\x7d a();".toList, "b();".toList, "console.log".toList]
            2 0 (0 + braceDelta (pyStrip ("b();".toList))) :=
  ⟨C2_early_exit.1 ["\x7d a();".toList, "b();".toList, "console.log".toList]
      2 0 0 ("\x7d a();".toList) rfl (by decide) (by decide) (by decide),
   C2_early_exit.2 ["\x7d a();".toList, "b();".toList, "console.log".toList]
      2 0 0 ("b();".toList) rfl (by decide) (by decide)⟩

/-- Every index the scan loop reads is in bounds: starting anywhere inside
the list, the scan produces a value (never the `none` that models an
`IndexError`). -/
theorem scanFrom_isSome (lines : List (List Char)) (n : Nat) :
    ∀ (i : Nat) (c : Int), i < lines.length →
      (scanFrom lines n i c).isSome = true := by
  intro i
  induction i with
  | zero =>
    intro c h
    rw [scanFrom_eq_body lines n 0 c _ (List.getElem?_eq_getElem h)]
    split
    · rfl
    · split
      · rfl
      · rfl
  | succ j ih =>
    intro c h
    rw [scanFrom_eq_body lines n (j + 1) c _ (List.getElem?_eq_getElem h)]
    split
    · rfl
    · split
      · rfl
      · exact ih _ (Nat.lt_of_succ_lt h)

/-- C4: `is_console_log_behind_debug_config` is total — for any line list
and any `log_line_num ≤ len(lines)` it reads no index out of bounds,
never raises, and returns a boolean. -/
theorem C4_classifier_total (lines : List (List Char)) (log_line_num : Nat)
    (h : log_line_num ≤ lines.length) :
    (is_console_log_behind_debug_config lines log_line_num).isSome = true := by
  match log_line_num with
  | 0 => rfl
  | m + 1 =>
    exact scanFrom_isSome lines (m + 1) m 0 (Nat.lt_of_succ_le h)

/-- C4 witness: the classifier produces a value at the last valid index of
a concrete two-line file. -/
theorem C4_classifier_total_witness :
    (is_console_log_behind_debug_config
      ["a".toList, "console.log(\"x\");".toList] 2).isSome = true :=
  C4_classifier_total ["a".toList, "console.log(\"x\");".toList] 2
    (by decide)

/-- The scan loop started at index `i` only reads indices `≤ i`: two files
agreeing there scan identically. -/
theorem scanFrom_congr (l1 l2 : List (List Char)) (n : Nat) :
    ∀ (i : Nat) (c : Int), (∀ j, j ≤ i → l1[j]? = l2[j]?) →
      scanFrom l1 n i c = scanFrom l2 n i c := by
  intro i
  induction i with
  | zero =>
    intro c h
    have h0 := h 0 (Nat.le_refl 0)
    cases hv : l2[0]? with
    | none => rw [scanFrom, scanFrom, h0, hv]
    | some l =>
      rw [scanFrom_eq_body l1 n 0 c l (h0.trans hv),
        scanFrom_eq_body l2 n 0 c l hv]
      exact rfl
  | succ j ih =>
    intro c h
    have hj1 := h (j + 1) (Nat.le_refl _)
    cases hv : l2[j + 1]? with
    | none => rw [scanFrom, scanFrom, hj1, hv]
    | some l =>
      rw [scanFrom_eq_body l1 n (j + 1) c l (hj1.trans hv),
        scanFrom_eq_body l2 n (j + 1) c l hv]
      by_cases hgd : guardHit (pyStrip l) (c + braceDelta (pyStrip l)) = true
      · rw [if_pos hgd, if_pos hgd]
      · rw [if_neg hgd, if_neg hgd]
        by_cases hst : 0 ≤ c + braceDelta (pyStrip l) ∧
            ((j + 1 : Nat) : Int) < (n : Int) - 1
        · rw [if_pos hst, if_pos hst]
        · rw [if_neg hst, if_neg hst]
          exact ih _ (fun j2 hj2 => h j2 (Nat.le_succ_of_le hj2))

/-- C9: the classifier's result depends only on the lines strictly before
the given index — two line sequences that agree on indices
`0 .. log_line_num - 1` classify that index identically, whatever the
target line itself or later lines contain. -/
theorem C9_depends_only_on_preceding_lines
    (l1 l2 : List (List Char)) (log_line_num : Nat)
    (h : ∀ i, i < log_line_num → l1[i]? = l2[i]?) :
    is_console_log_behind_debug_config l1 log_line_num
      = is_console_log_behind_debug_config l2 log_line_num := by
  match log_line_num with
  | 0 => rfl
  | m + 1 =>
    exact scanFrom_congr l1 l2 (m + 1) m 0
      (fun j hj => h j (Nat.lt_succ_of_le hj))

/-- C9 witness: two files sharing only the guard line above the target
(index 1) get the same classification although the target line and the
lines after it differ completely. -/
theorem C9_depends_only_on_preceding_lines_witness :
    is_console_log_behind_debug_config
        ["if (DEBUG_CONFIG) \x7b".toList, "console.log(\"a\");".toList] 1
      = is_console_log_behind_debug_config
        ["if (DEBUG_CONFIG) \x7b".toList, "other text".toList,
         "\x7d trailing".toList] 1 :=
  C9_depends_only_on_preceding_lines
    ["if (DEBUG_CONFIG) \x7b".toList, "console.log(\"a\");".toList]
    ["if (DEBUG_CONFIG) \x7b".toList, "other text".toList,
     "\x7d trailing".toList]
    1 (fun i hi => by
      have hi0 : i = 0 := by omega
      subst hi0
      rfl)

/-- Each step of the `analyze_file` loop adds the current line's target-call
indicator to `total`. -/
theorem foldl_analyzeStep_total (lines : List (List Char)) :
    ∀ (ps : List (Nat × List Char)) (r : FileResult),
      (ps.foldl (analyzeStep lines) r).total
        = r.total + ps.countP (fun p => containsTok consoleTok p.2) := by
  intro ps
  induction ps with
  | nil => intro r; simp
  | cons p ps ih =>
    intro r
    rw [List.foldl_cons, ih, List.countP_cons]
    by_cases hc : containsTok consoleTok p.2 = true
    · unfold analyzeStep
      rw [if_pos hc]
      split <;> simp [hc] <;> omega
    · simp [analyzeStep, hc]

/-- Each step of the `analyze_file` loop adds the current line's target-call
indicator to exactly one of `behind_debug` and `not_behind_debug`. -/
theorem foldl_analyzeStep_split (lines : List (List Char)) :
    ∀ (ps : List (Nat × List Char)) (r : FileResult),
      (ps.foldl (analyzeStep lines) r).behind_debug
          + (ps.foldl (analyzeStep lines) r).not_behind_debug
        = r.behind_debug + r.not_behind_debug
          + ps.countP (fun p => containsTok consoleTok p.2) := by
  intro ps
  induction ps with
  | nil => intro r; simp
  | cons p ps ih =>
    intro r
    rw [List.foldl_cons, ih, List.countP_cons]
    by_cases hc : containsTok consoleTok p.2 = true
    · unfold analyzeStep
      rw [if_pos hc]
      split <;> simp [hc] <;> omega
    · simp [analyzeStep, hc]

/-- The loop grows `not_behind_debug_lines` in lockstep with the
`not_behind_debug` counter. -/
theorem foldl_analyzeStep_len (lines : List (List Char)) :
    ∀ (ps : List (Nat × List Char)) (r : FileResult),
      (ps.foldl (analyzeStep lines) r).not_behind_debug
          + r.not_behind_debug_lines.length
        = (ps.foldl (analyzeStep lines) r).not_behind_debug_lines.length
          + r.not_behind_debug := by
  intro ps
  induction ps with
  | nil =>
    intro r
    simp only [List.foldl_nil]
    omega
  | cons p ps ih =>
    intro r
    rw [List.foldl_cons]
    have hstep := ih (analyzeStep lines r p)
    by_cases hc : containsTok consoleTok p.2 = true
    · unfold analyzeStep at hstep ⊢
      rw [if_pos hc] at hstep ⊢
      revert hstep
      split <;> (simp; try omega)
    · unfold analyzeStep at hstep ⊢
      rw [if_neg hc] at hstep ⊢
      omega

/-- Counting over an enumerated list by a property of the elements equals
counting over the original list. -/
theorem countP_enumFrom (f : List Char → Bool) :
    ∀ (ls : List (List Char)) (k : Nat),
      (List.enumFrom k ls).countP (fun p => f p.2)
        = ls.countP f := by
  intro ls
  induction ls with
  | nil => intro k; rfl
  | cons l ls ih =>
    intro k
    rw [List.enumFrom_cons, List.countP_cons, List.countP_cons, ih]

/-- C3: for every file, the `FileResult` of `analyze_file` satisfies
`total = behind_debug + not_behind_debug`, and `total` equals the number of
lines containing the substring `console.log`, each such line counted once
no matter how many occurrences it holds. -/
theorem C3_fileresult_invariant (lines : List (List Char)) :
    (analyze_file lines).total
        = (analyze_file lines).behind_debug
          + (analyze_file lines).not_behind_debug
    ∧ (analyze_file lines).total
        = lines.countP (fun l => containsTok consoleTok l) := by
  have htot := foldl_analyzeStep_total lines (List.enumFrom 0 lines)
    ⟨0, 0, 0, []⟩
  have hsplit := foldl_analyzeStep_split lines (List.enumFrom 0 lines)
    ⟨0, 0, 0, []⟩
  have hcount := countP_enumFrom (fun l => containsTok consoleTok l) lines 0
  simp only [] at htot hsplit
  unfold analyze_file
  exact ⟨by omega, by omega⟩

/-- In every `FileResult`, the unguarded counter equals the length of the
recorded unguarded occurrence list. -/
theorem analyze_file_nbd_eq_len (lines : List (List Char)) :
    (analyze_file lines).not_behind_debug
      = (analyze_file lines).not_behind_debug_lines.length := by
  have h := foldl_analyzeStep_len lines (List.enumFrom 0 lines) ⟨0, 0, 0, []⟩
  simp at h
  unfold analyze_file
  omega

/-- Dictionary assignment at a key not yet present appends the new pair. -/
theorem setAssoc_of_fresh (m : List (PathStr × OccList)) (k : PathStr)
    (v : OccList) (h : ∀ q ∈ m, q.1 ≠ k) :
    setAssoc m k v = m ++ [(k, v)] := by
  unfold setAssoc
  rw [if_neg]
  intro hc
  rw [List.any_eq_true] at hc
  obtain ⟨q, hq, hqk⟩ := hc
  exact h q hq (of_decide_eq_true hqk)

/-- `mainStep` adds the file's `total` to the running total. -/
theorem mainStep_total (s : RunSummary) (f : PathStr × List (List Char)) :
    (mainStep s f).total = s.total + (analyze_file f.2).total := by
  simp only [mainStep]
  split <;> rfl

/-- `mainStep` adds the file's `behind_debug` to the running count. -/
theorem mainStep_behind (s : RunSummary) (f : PathStr × List (List Char)) :
    (mainStep s f).behind_debug
      = s.behind_debug + (analyze_file f.2).behind_debug := by
  simp only [mainStep]
  split <;> rfl

/-- `mainStep` adds the file's `not_behind_debug` to the running count. -/
theorem mainStep_nbd (s : RunSummary) (f : PathStr × List (List Char)) :
    (mainStep s f).not_behind_debug
      = s.not_behind_debug + (analyze_file f.2).not_behind_debug := by
  simp only [mainStep]
  split <;> rfl

/-- `mainStep` records the file in the dictionary exactly when its
unguarded occurrence list is non-empty. -/
theorem mainStep_fwu (s : RunSummary) (f : PathStr × List (List Char)) :
    (mainStep s f).files_with_unguarded
      = if (analyze_file f.2).not_behind_debug_lines = [] then
          s.files_with_unguarded
        else
          setAssoc s.files_with_unguarded f.1
            (analyze_file f.2).not_behind_debug_lines := by
  simp only [mainStep]
  split <;> rfl

/-- Characterization of the dictionary built by the per-file loop: with
pairwise-distinct paths none of which is already a key, it appends, in
order, one entry per file with a non-empty unguarded list. -/
theorem foldl_mainStep_fwu :
    ∀ (files : List (PathStr × List (List Char))) (s : RunSummary),
      (∀ q ∈ s.files_with_unguarded, ∀ f ∈ files, q.1 ≠ f.1) →
      (files.map Prod.fst).Nodup →
      (files.foldl mainStep s).files_with_unguarded
        = s.files_with_unguarded
          ++ (files.filter
                (fun f => !(analyze_file f.2).not_behind_debug_lines.isEmpty)).map
              (fun f => (f.1, (analyze_file f.2).not_behind_debug_lines)) := by
  intro files
  induction files with
  | nil =>
    intro s h hnd
    simp
  | cons f fs ih =>
    intro s h hnd
    rw [List.map_cons, List.nodup_cons] at hnd
    rw [List.foldl_cons]
    by_cases hemp : (analyze_file f.2).not_behind_debug_lines = []
    · have hfwu : (mainStep s f).files_with_unguarded
          = s.files_with_unguarded := by
        rw [mainStep_fwu, if_pos hemp]
      have harg : ∀ q ∈ (mainStep s f).files_with_unguarded,
          ∀ g ∈ fs, q.1 ≠ g.1 := by
        rw [hfwu]
        exact fun q hq g hg => h q hq g (List.mem_cons_of_mem f hg)
      rw [ih (mainStep s f) harg hnd.2, hfwu]
      simp [List.filter_cons, hemp]
    · have hfwu : (mainStep s f).files_with_unguarded
          = s.files_with_unguarded
            ++ [(f.1, (analyze_file f.2).not_behind_debug_lines)] := by
        rw [mainStep_fwu, if_neg hemp]
        exact setAssoc_of_fresh _ _ _
          (fun q hq => h q hq f (List.mem_cons_self f fs))
      have harg : ∀ q ∈ (mainStep s f).files_with_unguarded,
          ∀ g ∈ fs, q.1 ≠ g.1 := by
        rw [hfwu]
        intro q hq g hg
        rcases List.mem_append.mp hq with hq1 | hq2
        · exact h q hq1 g (List.mem_cons_of_mem f hg)
        · have hqf : q = (f.1, (analyze_file f.2).not_behind_debug_lines) := by
            simpa using hq2
          rw [hqf]
          intro hcontra
          exact hnd.1 (hcontra ▸ List.mem_map_of_mem Prod.fst hg)
      rw [ih (mainStep s f) harg hnd.2, hfwu]
      simp [List.filter_cons, hemp]

/-- The per-file loop sums the per-file totals. -/
theorem foldl_mainStep_total :
    ∀ (files : List (PathStr × List (List Char))) (s : RunSummary),
      (files.foldl mainStep s).total
        = s.total + (files.map (fun f => (analyze_file f.2).total)).sum := by
  intro files
  induction files with
  | nil => intro s; simp
  | cons f fs ih =>
    intro s
    rw [List.foldl_cons, ih, mainStep_total]
    simp [Nat.add_assoc]

/-- The per-file loop sums the per-file guarded counts. -/
theorem foldl_mainStep_behind :
    ∀ (files : List (PathStr × List (List Char))) (s : RunSummary),
      (files.foldl mainStep s).behind_debug
        = s.behind_debug
          + (files.map (fun f => (analyze_file f.2).behind_debug)).sum := by
  intro files
  induction files with
  | nil => intro s; simp
  | cons f fs ih =>
    intro s
    rw [List.foldl_cons, ih, mainStep_behind]
    simp [Nat.add_assoc]

/-- The per-file loop sums the per-file unguarded counts. -/
theorem foldl_mainStep_nbd :
    ∀ (files : List (PathStr × List (List Char))) (s : RunSummary),
      (files.foldl mainStep s).not_behind_debug
        = s.not_behind_debug
          + (files.map (fun f => (analyze_file f.2).not_behind_debug)).sum := by
  intro files
  induction files with
  | nil => intro s; simp
  | cons f fs ih =>
    intro s
    rw [List.foldl_cons, ih, mainStep_nbd]
    simp [Nat.add_assoc]

/-- C6: with distinct file paths, a path is a key of
`files_with_unguarded` iff that file's unguarded count is at least one;
files with only guarded calls or no calls are absent, yet every file
contributes to the grand totals. -/
theorem C6_unguarded_mapping
    (files : List (PathStr × List (List Char)))
    (hnd : (files.map Prod.fst).Nodup) :
    (∀ p ls, (p, ls) ∈ files →
      (p ∈ (runScan files).files_with_unguarded.map Prod.fst ↔
        1 ≤ (analyze_file ls).not_behind_debug))
    ∧ (runScan files).total
        = (files.map (fun f => (analyze_file f.2).total)).sum
    ∧ (runScan files).behind_debug
        = (files.map (fun f => (analyze_file f.2).behind_debug)).sum
    ∧ (runScan files).not_behind_debug
        = (files.map (fun f => (analyze_file f.2).not_behind_debug)).sum := by
  have hchar := foldl_mainStep_fwu files ⟨0, 0, 0, []⟩ (by simp) hnd
  refine ⟨?_, ?_, ?_, ?_⟩
  · intro p ls hmem
    unfold runScan
    rw [hchar]
    simp only [List.nil_append, List.map_map, List.mem_map, List.mem_filter]
    constructor
    · intro hp
      obtain ⟨q, ⟨hqmem, hqP⟩, hq1⟩ := hp
      have hqeq : q = (p, ls) := by
        refine List.inj_on_of_nodup_map hnd hqmem hmem ?_
        simpa using hq1
      rw [hqeq] at hqP
      simp only [Bool.not_eq_true', List.isEmpty_eq_false] at hqP
      have hlen := analyze_file_nbd_eq_len ls
      have : (analyze_file ls).not_behind_debug_lines.length ≠ 0 := by
        simpa [List.length_eq_zero] using hqP
      omega
    · intro hge
      refine ⟨(p, ls), ⟨hmem, ?_⟩, rfl⟩
      have hlen := analyze_file_nbd_eq_len ls
      have hne : (analyze_file ls).not_behind_debug_lines ≠ [] := by
        intro hnil
        rw [hnil] at hlen
        simp at hlen
        omega
      simpa [List.isEmpty_eq_false] using hne
  · unfold runScan
    rw [foldl_mainStep_total]
    simp
  · unfold runScan
    rw [foldl_mainStep_behind]
    simp
  · unfold runScan
    rw [foldl_mainStep_nbd]
    simp

/-- C6 witness: in the two-file demo scan, the path of the file with an
unguarded call is a key of `files_with_unguarded`. -/
theorem C6_unguarded_mapping_witness :
    "src/a.ts".toList
      ∈ (runScan demoFiles).files_with_unguarded.map Prod.fst :=
  ((C6_unguarded_mapping demoFiles (by decide)).1
    ("src/a.ts".toList) demoUnguarded (by decide)).mpr (by decide)

/-- Each per-file block of the report carries exactly one header, the
path of the file. -/
theorem headerPaths_fileDetail (p : PathStr) (logs : OccList) :
    headerPaths (fileDetail p logs) = [p] := by
  unfold fileDetail headerPaths
  rw [List.filterMap_cons]
  simp only [List.filterMap_append, List.filterMap_map]
  split <;> simp

/-- The headers of the report are the sorted paths, in order. -/
theorem headerPaths_reportDetails (m : List (PathStr × OccList)) :
    headerPaths (reportDetails m) = (sortPairs m).map Prod.fst := by
  unfold reportDetails
  generalize sortPairs m = l
  induction l with
  | nil => rfl
  | cons q l ih =>
    rw [List.flatMap_cons, List.map_cons, ← ih]
    unfold headerPaths
    rw [List.filterMap_append]
    have hq := headerPaths_fileDetail q.1 q.2
    unfold headerPaths at hq
    rw [hq]
    rfl

/-- The per-file loop only appends occurrences taken from the enumerated
line list, storing the 1-based line number with the stripped line. -/
theorem foldl_analyzeStep_mem (lines : List (List Char)) :
    ∀ (ps : List (Nat × List Char)) (r : FileResult) (o : Nat × List Char),
      o ∈ (ps.foldl (analyzeStep lines) r).not_behind_debug_lines →
      o ∈ r.not_behind_debug_lines
        ∨ ∃ q, q ∈ ps ∧ containsTok consoleTok q.2 = true
            ∧ o = (q.1 + 1, pyStrip q.2) := by
  intro ps
  induction ps with
  | nil =>
    intro r o h
    exact Or.inl h
  | cons p ps ih =>
    intro r o h
    rcases ih (analyzeStep lines r p) o h with h1 | h2
    · unfold analyzeStep at h1
      by_cases hc : containsTok consoleTok p.2 = true
      · rw [if_pos hc] at h1
        split at h1
        · exact Or.inl h1
        · rcases List.mem_append.mp h1 with h3 | h4
          · exact Or.inl h3
          · refine Or.inr ⟨p, List.mem_cons_self p ps, hc, ?_⟩
            simpa using h4
      · rw [if_neg hc] at h1
        exact Or.inl h1
    · obtain ⟨q, hq, hqc, hqo⟩ := h2
      exact Or.inr ⟨q, List.mem_cons_of_mem p hq, hqc, hqo⟩

/-- Every recorded unguarded occurrence points back, via its 1-based line
number, at an actual line of the file that contains the target call; the
stored snippet is that line stripped. -/
theorem analyze_file_occurrences (lines : List (List Char))
    (o : Nat × List Char)
    (h : o ∈ (analyze_file lines).not_behind_debug_lines) :
    ∃ i l, lines[i]? = some l ∧ o.1 = i + 1 ∧ o.2 = pyStrip l
      ∧ containsTok consoleTok l = true := by
  unfold analyze_file at h
  rcases foldl_analyzeStep_mem lines (List.enumFrom 0 lines) ⟨0, 0, 0, []⟩ o h
    with h1 | h2
  · simp at h1
  · obtain ⟨q, hq, hqc, hqo⟩ := h2
    obtain ⟨qi, ql⟩ := q
    have hm := List.mem_enumFrom hq
    have hlt : qi < lines.length := by
      have := hm.2.1
      omega
    have hget : lines[qi]? = some ql := by
      rw [List.getElem?_eq_getElem hlt]
      have := hm.2.2
      simp at this
      rw [this]
    exact ⟨qi, ql, hget, by rw [hqo], by rw [hqo], hqc⟩

/-- C7: the printed per-file detail is ordered by ascending path; each file
block shows at most 3 example occurrences — exactly the first
`min 3 len` of them, each an occurrence's 1-based line number with its
snippet cut to 80 characters — and carries a `... and k more` item exactly
when more than 3 unguarded occurrences exist, with `k` the number of
remaining ones; every printed occurrence points at a real line of its
file. -/
theorem C7_report_format :
    (∀ m : List (PathStr × OccList),
      headerPaths (reportDetails m) = (sortPairs m).map Prod.fst
      ∧ List.Sorted (fun a b : PathStr => a ≤ b)
          (headerPaths (reportDetails m)))
    ∧ (∀ (p : PathStr) (logs : OccList),
        (fileDetail p logs).countP isSampleItem = min 3 logs.length)
    ∧ (∀ (p : PathStr) (logs : OccList) (k : Nat) (s : List Char),
        ReportItem.sample k s ∈ fileDetail p logs →
          s.length ≤ 80
          ∧ ∃ o, o ∈ logs.take 3 ∧ k = o.1 ∧ s = o.2.take 80)
    ∧ (∀ (p : PathStr) (logs : OccList) (j : Nat),
        ReportItem.remaining j ∈ fileDetail p logs ↔
          3 < logs.length ∧ j = logs.length - 3)
    ∧ (∀ (lines : List (List Char)) (o : Nat × List Char),
        o ∈ (analyze_file lines).not_behind_debug_lines →
          ∃ i l, lines[i]? = some l ∧ o.1 = i + 1 ∧ o.2 = pyStrip l
            ∧ containsTok consoleTok l = true) := by
  refine ⟨?_, ?_, ?_, ?_, analyze_file_occurrences⟩
  · intro m
    refine ⟨headerPaths_reportDetails m, ?_⟩
    rw [headerPaths_reportDetails m]
    have hs := List.sorted_insertionSort pairLe m
    exact List.Pairwise.map Prod.fst (fun a b hab => hab) hs
  · intro p logs
    unfold fileDetail
    rw [List.countP_cons]
    simp only [List.countP_append, List.countP_map]
    split <;>
      simp [isSampleItem, Function.comp_def, List.countP_true,
        List.length_take, Nat.min_comm]
  · intro p logs k s h
    unfold fileDetail at h
    rcases List.mem_cons.mp h with h1 | h2
    · simp at h1
    rcases List.mem_append.mp h2 with h3 | h4
    · rw [List.mem_map] at h3
      obtain ⟨o, ho, hoeq⟩ := h3
      simp only [ReportItem.sample.injEq] at hoeq
      refine ⟨?_, o, ho, hoeq.1.symm, hoeq.2.symm⟩
      rw [← hoeq.2]
      exact List.length_take_le 80 o.2
    · revert h4
      split <;> simp
  · intro p logs j
    unfold fileDetail
    constructor
    · intro h
      rcases List.mem_cons.mp h with h1 | h2
      · simp at h1
      rcases List.mem_append.mp h2 with h3 | h4
      · rw [List.mem_map] at h3
        obtain ⟨o, _, hoeq⟩ := h3
        simp at hoeq
      · revert h4
        split
        · rename_i hcond
          intro h4
          have hj : j = logs.length - 3 := by simpa using h4
          exact ⟨hcond, hj⟩
        · intro h4
          simp at h4
    · intro ⟨h3, hj⟩
      refine List.mem_cons_of_mem _ (List.mem_append.mpr (Or.inr ?_))
      rw [if_pos h3, hj]
      exact List.mem_singleton.mpr rfl

/-- C7 witness: with five unguarded occurrences, the report block of the
file contains the `... and 2 more` remainder item. -/
theorem C7_report_format_witness :
    ReportItem.remaining 2 ∈ fileDetail ("src/a.ts".toList) demoLogs :=
  (C7_report_format.2.2.2.1 ("src/a.ts".toList) demoLogs 2).mpr
    ⟨by decide, by decide⟩

/-- C8: the scan is deterministic and idempotent — it is a pure function
of the file contents, so two runs over the same unchanged files produce
identical `RunSummary` values. -/
theorem C8_scan_deterministic
    (files1 files2 : List (PathStr × List (List Char)))
    (h : files1 = files2) : runScan files1 = runScan files2 := by
  rw [h]

/-- C8 witness: re-running the demo scan reproduces the same summary. -/
theorem C8_scan_deterministic_witness :
    runScan demoFiles = runScan demoFiles :=
  C8_scan_deterministic demoFiles demoFiles rfl

end CountConsoleLogs
